import Mathlib

/-!
Verification development for the StoreMyText client controller
(`static/script.js`).  The browser-side controller is embedded shallowly:

* JS strings are Lean `String`s; JS string truthiness (`!s`) is emptiness;
  `String.prototype.toLowerCase` is a per-character ASCII lowering
  (`jsToLower`), and `String.prototype.includes` is executable substring
  containment (`jsIncludes`).
* The mutable `state` object of the script is the record `AppState`;
  the JS `Set`s (`selectedNotes`, `pinnedNotes`) are insertion-ordered
  duplicate-free lists, as JS sets are, so that their serialisation order
  to `localStorage` is captured faithfully.  `localStorage` is modelled by
  the `storedToken`/`storedPinned` fields.
* Every network interaction is a parameter of type `ApiResult _`: the
  handler is a pure function of the response the `fetch` resolves with.
  `apiRequest` throws `Error(msg)` on a non-2xx response, hence the
  error case carries the message string the catch blocks inspect.
* DOM writes that do not feed back into `state` (messages, loaders,
  checkboxes, button labels) are dropped; fields such as `currentView`
  and the note-detail modal fields keep exactly the state the script
  keeps.
* `updated_at` is a date string parsed with `new Date` only to be
  compared numerically; it is modelled as its epoch value (`Int`).
-/

namespace StoreMyText

/-! ## JS string primitives -/

/-- Executable test that `n` is a leading segment of `h` (character lists). -/
def bPre : List Char → List Char → Bool
  | [], _ => true
  | _ :: _, [] => false
  | a :: as, b :: bs => a == b && bPre as bs

/-- Executable test that `n` occurs contiguously inside `h`:
the semantics of JS `String.prototype.includes`. -/
def bSub (n : List Char) : List Char → Bool
  | [] => bPre n []
  | b :: bs => bPre n (b :: bs) || bSub n bs

/-- JS `hay.includes(needle)`. -/
def jsIncludes (hay needle : String) : Bool := bSub needle.data hay.data

/-- ASCII lowering of one character, as `toLowerCase` acts on ASCII. -/
def lowerC (c : Char) : Char :=
  if 65 ≤ c.toNat ∧ c.toNat ≤ 90 then Char.ofNat (c.toNat + 32) else c

/-- JS `s.toLowerCase()` (ASCII fragment). -/
def jsToLower (s : String) : String := ⟨s.data.map lowerC⟩

/-- JS truthiness of a string: every string except `""` is truthy. -/
def jsTruthy (s : String) : Bool := s != ""

/-! ## Data model -/

/-- A note record as served by `/history`:
`{filename, title, filecontent, updated_at, drive_file_id?}`.
`filename` is the opaque note id. -/
structure Note where
  filename : String
  title : String
  filecontent : String
  updated_at : Int
  drive_file_id : Option String
deriving DecidableEq, Repr

/-- The server's possible answers to one request, as seen by the
`try`/`catch` around `apiRequest`: a parsed payload, or a thrown
`Error` carrying the message string. -/
inductive ApiResult (α : Type) where
  | ok (a : α)
  | err (msg : String)
deriving DecidableEq, Repr

/-- Payload of `/me`: `{email, drive_linked}`. -/
structure Profile where
  email : String
  drive_linked : Bool
deriving DecidableEq, Repr

/-- The script's `state` object together with the two `localStorage`
keys it maintains (`"token"` and `"pinnedNotes"`) and the fields of the
note-detail modal that `handleViewNote` writes. -/
structure AppState where
  token : Option String
  storedToken : Option String
  currentView : String
  editingFilename : Option String
  notesCache : List Note
  selectedNotes : List String
  pinnedNotes : List String
  storedPinned : List String
  userEmail : Option String
  driveLinked : Bool
  viewModalOpen : Bool
  viewTitle : String
  viewContent : String
deriving DecidableEq, Repr

/-- State at `DOMContentLoaded`: `state.token`/`state.pinnedNotes` are read
from `localStorage`, everything else starts as in the literal. -/
def initState (storedToken : Option String) (storedPinned : List String) : AppState :=
  { token := storedToken
    storedToken := storedToken
    currentView := ""
    editingFilename := none
    notesCache := []
    selectedNotes := []
    pinnedNotes := storedPinned
    storedPinned := storedPinned
    userEmail := none
    driveLinked := false
    viewModalOpen := false
    viewTitle := ""
    viewContent := "" }

/-! ## Handlers (translated from `static/script.js`) -/

/-- `showView(viewName)`: beyond DOM visibility it records
`state.currentView = viewName`. -/
def showView (viewName : String) (s : AppState) : AppState :=
  { s with currentView := viewName }

/-- The test `error.message.toLowerCase().includes("authorization")` used
by `loadUserProfile` to classify an authentication-rejection. -/
def isAuthError (msg : String) : Bool := jsIncludes (jsToLower msg) ("authorization")

/-- `loadUserProfile()` (lines 453–479), as a function of the `/me`
response.  Without a token it clears the profile fields and shows login;
on success it stores the profile and re-shows history or main; on an
authorization error it removes the stored token, nulls `state.token` and
shows login; on any other error it only shows a message. -/
def loadUserProfile (resp : ApiResult Profile) (s : AppState) : AppState :=
  if s.token = none then
    showView ("login") { s with userEmail := none, driveLinked := false }
  else
    match resp with
    | .ok p =>
        showView (if s.currentView = "history" then "history" else "main")
          { s with
              userEmail := some (if jsTruthy p.email then p.email else "Logged in")
              driveLinked := p.drive_linked }
    | .err m =>
        if isAuthError m then
          showView ("login") { s with token := none, storedToken := none }
        else s

/-- `fetchHistory()` (lines 240–252): on success the cache is replaced by
the fetched list (`state.notesCache = data || []`) and the list is
re-rendered; on failure only a message is shown. -/
def fetchHistory (resp : ApiResult (List Note)) (s : AppState) : AppState :=
  match resp with
  | .ok data => { s with notesCache := data }
  | .err _ => s

/-- `handleSaveNote` (lines 218–238), as a function of the trimmed title
and content and the `/save` response.  An empty title never reaches the
network; a successful save resets the editor (`resetEditor`); a failed
save only shows a message. -/
def handleSaveNote (title _content : String) (resp : ApiResult String) (s : AppState) :
    AppState :=
  if jsTruthy title then
    match resp with
    | .ok _ => { s with editingFilename := none }
    | .err _ => s
  else s

/-- `handleDeleteNote(filenames)` (lines 254–270), as a function of the
confirmation outcome and the `/delete` and follow-up `/history`
responses.  Returns the final state together with the list of endpoints
actually requested.  A declined confirmation returns before any request;
a successful delete refetches history (which handles its own failure)
and then clears the selection set. -/
def handleDeleteNote (filenames : List String) (confirmed : Bool)
    (dresp : ApiResult Unit) (hresp : ApiResult (List Note)) (s : AppState) :
    AppState × List String :=
  if confirmed then
    match dresp with
    | .ok _ => ({ fetchHistory hresp s with selectedNotes := [] }, ["/delete", "/history"])
    | .err _ => (s, ["/delete"])
  else (s, [])

/-- `handlePinNote(filename)` (lines 371–379): toggle membership in the
`pinnedNotes` set (JS sets delete in place and append on add) and persist
the spread of the set to `localStorage`. -/
def handlePinNote (filename : String) (s : AppState) : AppState :=
  let p :=
    if filename ∈ s.pinnedNotes then s.pinnedNotes.erase filename
    else s.pinnedNotes ++ [filename]
  { s with pinnedNotes := p, storedPinned := p }

/-- `handleViewNote(filename)` (lines 343–355): look the note up in the
cache, return early when absent, otherwise populate and open the modal. -/
def handleViewNote (filename : String) (s : AppState) : AppState :=
  match s.notesCache.find? (fun n => n.filename == filename) with
  | none => s
  | some note =>
      { s with viewModalOpen := true, viewTitle := note.title
               viewContent := note.filecontent }

/-- `initializeApp()` (lines 596–608), assuming no OAuth redirect flags in
the URL (so `checkOAuthRedirectFlags` is a no-op).  With a stored token it
awaits `loadUserProfile` — which never rejects, since it catches all of
its own errors — and then unconditionally shows the main view; without a
token it shows login. -/
def initializeApp (s : AppState) (resp : ApiResult Profile) : AppState :=
  if s.token = none then showView ("login") s
  else showView ("main") (loadUserProfile resp s)

/-! ## Renderer (filter and sort of `renderHistory`, lines 272–291) -/

/-- The filter predicate of `renderHistory` applied with the already
lowered search term:
`(note.title && note.title.toLowerCase().includes(t)) ||
 (note.filecontent && note.filecontent.toLowerCase().includes(t))`. -/
def noteMatches (lowerTerm : String) (n : Note) : Bool :=
  (jsTruthy n.title && jsIncludes (jsToLower n.title) lowerTerm) ||
  (jsTruthy n.filecontent && jsIncludes (jsToLower n.filecontent) lowerTerm)

/-- `state.notesCache.filter(...)` with `lowerCaseSearchTerm = searchTerm.toLowerCase()`. -/
def filterNotes (searchTerm : String) (cache : List Note) : List Note :=
  cache.filter (noteMatches (jsToLower searchTerm))

/-- `state.pinnedNotes.has(n.filename)`. -/
def notePinned (pinned : List String) (n : Note) : Bool := n.filename ∈ pinned

/-- The comparator passed to `notesToRender.sort`:
pinned-only first (−1/1), otherwise `Date(b.updated_at) - Date(a.updated_at)`. -/
def jsCompare (pinned : List String) (a b : Note) : Int :=
  if notePinned pinned a && !notePinned pinned b then -1
  else if !notePinned pinned a && notePinned pinned b then 1
  else b.updated_at - a.updated_at

/-- `a` may come no later than `b` under the comparator. -/
def leN (pinned : List String) (a b : Note) : Bool := jsCompare pinned a b ≤ 0

/-- Stable insertion placing a new element (earlier in the original list)
before the first resident element it compares `≤` to.  Residents were
later in the original list, so ties keep original order — the stability
contract of `Array.prototype.sort`. -/
def insertS {α : Type} (le : α → α → Bool) (x : α) : List α → List α
  | [] => [x]
  | y :: ys => if le x y then x :: y :: ys else y :: insertS le x ys

/-- Stable sort by a comparator-induced `le`; models
`Array.prototype.sort(comparator)` for a consistent comparator, whose
output (a sorted stable permutation) is unique. -/
def isort {α : Type} (le : α → α → Bool) : List α → List α
  | [] => []
  | x :: xs => insertS le x (isort le xs)

/-- The sort stage of `renderHistory`. -/
def sortNotes (pinned : List String) (l : List Note) : List Note :=
  isort (leN pinned) l

/-- The list `renderHistory` renders: filter, then in-place sort. -/
def renderList (searchTerm : String) (pinned : List String) (cache : List Note) :
    List Note :=
  sortNotes pinned (filterNotes searchTerm cache)

/-! ## `escapeHTML` (lines 188–197) -/

/-- The character class of the regex `/[&<>"']/g`. -/
def escClass (c : Char) : Bool :=
  c == '&' || c == '<' || c == '>' || c == Char.ofNat 34 || c == Char.ofNat 39

/-- The replacement object `{'&': '&amp;', ...}` looked up at a matched
character. -/
def escMap (c : Char) : String :=
  if c == '&' then "&amp;"
  else if c == '<' then "&lt;"
  else if c == '>' then "&gt;"
  else if c == Char.ofNat 34 then "&quot;"
  else if c == Char.ofNat 39 then "&#39;"
  else ""

/-- `str.replace(re, f)` for a single-character class `re` with global
flag: every matched character is replaced by `f`'s answer, everything
else is copied. -/
def replaceAllChars (p : Char → Bool) (f : Char → String) (s : String) : String :=
  ⟨s.data.flatMap fun c => if p c then (f c).data else [c]⟩

/-- `escapeHTML(str)`: `none` stands for `null`/`undefined` input; any
falsy input returns `""`, otherwise the global regex replacement runs. -/
def escapeHTML : Option String → String
  | none => ""
  | some s => if jsTruthy s then replaceAllChars escClass escMap s else ""

/-! ## Claim-side definitions (worded from the spec, for comparison) -/

/-- Per-character escaping as claim C10 words it: each of the five special
characters becomes its HTML entity, every other character is unchanged. -/
def escSpecChar (c : Char) : String :=
  if c = '&' then "&amp;"
  else if c = '<' then "&lt;"
  else if c = '>' then "&gt;"
  else if c = Char.ofNat 34 then "&quot;"
  else if c = Char.ofNat 39 then "&#39;"
  else String.singleton c

/-- The filter predicate as claim C4 words it: keep a note iff its title
or its content contains the search term as a case-insensitive substring
(no truthiness guard). -/
def claimMatches (searchTerm : String) (n : Note) : Bool :=
  jsIncludes (jsToLower n.title) (jsToLower searchTerm) ||
  jsIncludes (jsToLower n.filecontent) (jsToLower searchTerm)

/-- `needle` occurs contiguously inside `hay` (the mathematical relation
that `jsIncludes` is checked against). -/
def SubstrOf (needle hay : List Char) : Prop :=
  ∃ pre post, hay = pre ++ needle ++ post

/-! ## Cache-operation sequences (for the C5 invariant) -/

/-- The pinned-set toggle performed by `handlePinNote` on the underlying
list. -/
def toggleL (l : List String) (id : String) : List String :=
  if id ∈ l then l.erase id else l ++ [id]

/-- One operation that can touch the Local Cache: a refresh
(`fetchHistory`, i.e. `replaceAll` with the fetched list) or a bulk
delete (`handleDeleteNote`, whose success path refetches). -/
inductive CacheOp where
  | fetchOp (resp : ApiResult (List Note))
  | deleteOp (filenames : List String) (confirmed : Bool)
      (dresp : ApiResult Unit) (hresp : ApiResult (List Note))

/-- Apply one cache operation to the state. -/
def applyOp (s : AppState) : CacheOp → AppState
  | .fetchOp r => fetchHistory r s
  | .deleteOp fns c dr hr => (handleDeleteNote fns c dr hr s).1

/-- Run a sequence of cache operations. -/
def runOps (s : AppState) (ops : List CacheOp) : AppState :=
  ops.foldl applyOp s

/-- The server note lists an operation can install into the cache: the
payloads of its successful `/history` responses. -/
def okPayloads : CacheOp → List (List Note)
  | .fetchOp (.ok l) => [l]
  | .fetchOp (.err _) => []
  | .deleteOp _ _ _ (.ok l) => [l]
  | .deleteOp _ _ _ (.err _) => []

/-! ## Sample data used in concrete theorems -/

/-- The unpinned note of claim C6's example (`updatedAt 10`). -/
def noteA : Note := ⟨"A", "a", "", 10, none⟩

/-- The pinned note of claim C6's example (`updatedAt 5`). -/
def noteB : Note := ⟨"B", "b", "", 5, none⟩

/-- The second unpinned note of claim C6's example (`updatedAt 20`). -/
def noteC : Note := ⟨"C", "c", "", 20, none⟩

/-- A fresh note used as a refresh payload. -/
def noteY : Note := ⟨"y", "ty", "tc", 0, none⟩

/-- A note whose title and content are both empty. -/
def emptyNote : Note := ⟨"f1", "", "", 0, none⟩

/-- The note titled `Grocery List` from the claim C4 examples. -/
def groceryNote : Note := ⟨"g", "Grocery List", "eggs and milk", 0, none⟩

/-- A note used to build a duplicate-id fetch payload. -/
def dupNote : Note := ⟨"x", "t", "c", 0, none⟩

/-! ## Helper lemmas: substring checks -/

theorem bPre_iff : ∀ (n h : List Char), bPre n h = true ↔ ∃ t, h = n ++ t
  | [], h => by simp [bPre]
  | a :: as, [] => by simp [bPre]
  | a :: as, b :: bs => by
      simp only [bPre, Bool.and_eq_true, beq_iff_eq, bPre_iff as bs]
      constructor
      · rintro ⟨rfl, t, rfl⟩
        exact ⟨t, rfl⟩
      · rintro ⟨t, ht⟩
        injection ht with h1 h2
        exact ⟨h1.symm, t, h2⟩

theorem bSub_iff : ∀ (n h : List Char), bSub n h = true ↔ SubstrOf n h
  | n, [] => by
      simp only [bSub, bPre_iff, SubstrOf]
      constructor
      · rintro ⟨t, ht⟩
        rcases List.append_eq_nil.mp ht.symm with ⟨rfl, rfl⟩
        exact ⟨[], [], rfl⟩
      · rintro ⟨p, t, ht⟩
        rcases List.append_eq_nil.mp ht.symm with ⟨h1, rfl⟩
        rcases List.append_eq_nil.mp h1 with ⟨rfl, rfl⟩
        exact ⟨[], rfl⟩
  | n, b :: bs => by
      simp only [bSub, Bool.or_eq_true, bPre_iff, bSub_iff n bs, SubstrOf]
      constructor
      · rintro (⟨t, ht⟩ | ⟨p, t, ht⟩)
        · exact ⟨[], t, by simpa using ht⟩
        · exact ⟨b :: p, t, by simp [ht]⟩
      · rintro ⟨p, t, ht⟩
        cases p with
        | nil => exact .inl ⟨t, by simpa using ht⟩
        | cons x xs =>
            injection ht with h1 h2
            exact .inr ⟨xs, t, h2⟩

theorem jsIncludes_iff (hay needle : String) :
    jsIncludes hay needle = true ↔ SubstrOf needle.data hay.data :=
  bSub_iff needle.data hay.data

theorem jsTruthy_iff (s : String) : jsTruthy s = true ↔ s ≠ "" := by
  simp [jsTruthy]

/-! ## Helper lemmas: escaping -/

theorem escChar_data (c : Char) :
    (if escClass c then (escMap c).data else [c]) = (escSpecChar c).data := by
  by_cases h1 : c = '&'
  · simp [escClass, escMap, escSpecChar, h1]
  · by_cases h2 : c = '<'
    · simp [escClass, escMap, escSpecChar, h1, h2]
    · by_cases h3 : c = '>'
      · simp [escClass, escMap, escSpecChar, h1, h2, h3]
      · by_cases h4 : c = Char.ofNat 34
        · simp [escClass, escMap, escSpecChar, h1, h2, h3, h4]
        · by_cases h5 : c = Char.ofNat 39
          · simp [escClass, escMap, escSpecChar, h1, h2, h3, h4, h5]
          · simp [escClass, escMap, escSpecChar, h1, h2, h3, h4, h5,
              String.singleton]

theorem replaceAllChars_data (s : String) :
    (replaceAllChars escClass escMap s).data
      = s.data.flatMap fun c => (escSpecChar c).data := by
  have hfun : (fun c => if escClass c then (escMap c).data else [c])
      = fun c => (escSpecChar c).data := funext escChar_data
  show s.data.flatMap _ = _
  rw [hfun]

/-! ## Claim theorems -/

/-- Claim C2, counterexample: with `"x"` selected, a successful refresh
whose payload is `[noteY]` leaves `"x"` in the Selection Set although no
note of the new list has id `"x"` — the claimed pruning does not happen. -/
theorem c2_claim_counterexample :
    "x" ∈ (fetchHistory (.ok [noteY])
        { initState (some ("t")) [] with selectedNotes := ["x"] }).selectedNotes
  ∧ "x" ∉ ((fetchHistory (.ok [noteY])
        { initState (some ("t")) [] with selectedNotes := ["x"] }).notesCache.map
          Note.filename) := by
  decide

/-- Claim C2, amended: a successful `fetchHistory` replaces the cache with
the fetched list verbatim and leaves the Selection Set exactly as it was,
so stale selection ids survive a refresh (they are cleared only by a
successful bulk delete). -/
theorem c2_refresh_keeps_selection (s : AppState) (data : List Note) :
    (fetchHistory (.ok data) s).notesCache = data
  ∧ (fetchHistory (.ok data) s).selectedNotes = s.selectedNotes :=
  ⟨rfl, rfl⟩

/-- Claim C3: at startup with a stored token that the server rejects with
an authorization error, `initializeApp` awaits `loadUserProfile` (which
tears the session down and briefly shows login) and then unconditionally
shows the main/editor view — the final state is `main` with no token,
not `Login` as claimed.  The token-absent and token-accepted startups do
match the claim. -/
theorem c3_startup_rejected_token_shows_main :
    isAuthError ("Authorization header missing") = true
  ∧ (initializeApp (initState (some ("tok")) [])
      (.err ("Authorization header missing"))).token = none
  ∧ (initializeApp (initState (some ("tok")) [])
      (.err ("Authorization header missing"))).storedToken = none
  ∧ (initializeApp (initState (some ("tok")) [])
      (.err ("Authorization header missing"))).currentView = "main"
  ∧ (initializeApp (initState none []) (.ok ⟨"u", false⟩)).currentView = "login"
  ∧ (initializeApp (initState (some ("tok")) [])
      (.ok ⟨"u", false⟩)).currentView = "main" := by
  decide

/-- Claim C7: a bulk delete whose confirmation dialog resolves to `false`
returns before `apiRequest` is ever called: no endpoint is requested and
the state — cache and Selection Set included — is exactly unchanged. -/
theorem c7_declined_delete_noop (filenames : List String) (s : AppState)
    (dresp : ApiResult Unit) (hresp : ApiResult (List Note))
    (hne : filenames ≠ []) :
    handleDeleteNote filenames false dresp hresp s = (s, []) :=
  rfl

/-- Witness for `c7_declined_delete_noop` at a concrete non-empty id set. -/
theorem c7_declined_delete_noop_witness :
    handleDeleteNote ["a"] false (.ok ()) (.ok []) (initState none [])
      = (initState none [], []) :=
  c7_declined_delete_noop ["a"] (initState none []) (.ok ()) (.ok [])
    (by decide)

/-- Claim C9: viewing a note whose id has no matching cache entry returns
at the `if (!note) return` guard, leaving the whole state — cache,
Selection Set, Pinned Set, current view — unchanged. -/
theorem c9_view_unknown_id_noop (filename : String) (s : AppState)
    (h : s.notesCache.find? (fun n => n.filename == filename) = none) :
    handleViewNote filename s = s := by
  simp [handleViewNote, h]

/-- Witness for `c9_view_unknown_id_noop` on an empty cache. -/
theorem c9_view_unknown_id_noop_witness :
    handleViewNote ("z") (initState none []) = initState none [] :=
  c9_view_unknown_id_noop ("z") (initState none []) (by decide)

/-- Claim C1, counterexample: `fetchHistory` receiving an authentication
rejection (a message the code itself classifies as one) leaves the token
in place and the view on `history` — only `loadUserProfile` tears the
session down, its error handler is the sole one that inspects the
message. -/
theorem c1_claim_counterexample :
    isAuthError ("authorization") = true
  ∧ (fetchHistory (.err ("authorization"))
      { initState (some ("tok")) [] with currentView := "history" }).token
        = some ("tok")
  ∧ (fetchHistory (.err ("authorization"))
      { initState (some ("tok")) [] with currentView := "history" }).storedToken
        = some ("tok")
  ∧ (fetchHistory (.err ("authorization"))
      { initState (some ("tok")) [] with currentView := "history" }).currentView
        = "history" := by
  decide

/-- Claim C1, amended: only `loadUserProfile` reacts to an authentication
rejection by tearing the session down (token nulled, stored token
removed, view forced to login); `fetchHistory`, `handleSaveNote` and
`handleDeleteNote` leave the state — session and view included —
unchanged on any error response, showing only an inline message. -/
theorem c1_auth_rejection_per_operation :
    (∀ (s : AppState) (m t : String), isAuthError m = true → s.token = some t →
      loadUserProfile (.err m) s =
        { s with token := none, storedToken := none, currentView := "login" })
  ∧ (∀ (s : AppState) (m : String), fetchHistory (.err m) s = s)
  ∧ (∀ (s : AppState) (ti c m : String), handleSaveNote ti c (.err m) s = s)
  ∧ (∀ (s : AppState) (fns : List String) (cf : Bool) (m : String)
      (hr : ApiResult (List Note)),
      (handleDeleteNote fns cf (.err m) hr s).1 = s) := by
  refine ⟨?_, fun s m => rfl, ?_, ?_⟩
  · intro s m t hm ht
    simp [loadUserProfile, ht, hm, showView]
  · intro s ti c m
    by_cases h : jsTruthy ti <;> simp [handleSaveNote, h]
  · intro s fns cf m hr
    cases cf <;> rfl

/-- Witness for `c1_auth_rejection_per_operation`: the profile load at a
concrete rejected session. -/
theorem c1_auth_rejection_per_operation_witness :
    loadUserProfile (.err ("authorization")) (initState (some ("tok")) [])
      = { initState (some ("tok")) [] with
            token := none, storedToken := none, currentView := "login" } :=
  c1_auth_rejection_per_operation.1 (initState (some ("tok")) [])
    ("authorization") ("tok") (by decide) rfl

/-- Claim C8, counterexample: toggling the pin of `"a"` twice on the
pinned set `["a", "b"]` yields the set `["b", "a"]` — the same
membership, but a different insertion order, so the in-memory set object
and its serialized `localStorage` copy are not restored to their original
values. -/
theorem c8_claim_counterexample :
    (handlePinNote ("a") (handlePinNote ("a")
        (initState none ["a", "b"]))).storedPinned
      ≠ (initState none ["a", "b"]).storedPinned
  ∧ (handlePinNote ("a") (handlePinNote ("a")
        (initState none ["a", "b"]))).pinnedNotes
      ≠ (initState none ["a", "b"]).pinnedNotes := by
  decide

/-- `handlePinNote` updates both pinned fields with `toggleL`. -/
theorem handlePinNote_fields (id : String) (s : AppState) :
    (handlePinNote id s).pinnedNotes = toggleL s.pinnedNotes id
  ∧ (handlePinNote id s).storedPinned = toggleL s.pinnedNotes id :=
  ⟨rfl, rfl⟩

/-- Membership after one toggle of a duplicate-free pinned list. -/
theorem toggleL_mem (l : List String) (id x : String) (h : l.Nodup) :
    x ∈ toggleL l id ↔ (x = id ∧ id ∉ l) ∨ (x ≠ id ∧ x ∈ l) := by
  unfold toggleL
  by_cases hid : id ∈ l
  · rw [if_pos hid, List.Nodup.mem_erase_iff h]
    constructor
    · rintro ⟨hne, hx⟩
      exact .inr ⟨hne, hx⟩
    · rintro (⟨rfl, hni⟩ | ⟨hne, hx⟩)
      · exact absurd hid hni
      · exact ⟨hne, hx⟩
  · rw [if_neg hid]
    simp only [List.mem_append, List.mem_singleton]
    constructor
    · rintro (hx | rfl)
      · exact .inr ⟨fun he => hid (he ▸ hx), hx⟩
      · exact .inl ⟨rfl, hid⟩
    · rintro (⟨rfl, _⟩ | ⟨_, hx⟩)
      · exact .inr rfl
      · exact .inl hx

/-- A toggle keeps the pinned list duplicate-free. -/
theorem toggleL_nodup (l : List String) (id : String) (h : l.Nodup) :
    (toggleL l id).Nodup := by
  unfold toggleL
  by_cases hid : id ∈ l
  · rw [if_pos hid]
    exact h.erase id
  · rw [if_neg hid]
    simp [List.nodup_append, h, hid]

/-- Claim C8, amended: on a duplicate-free pinned set, toggling an id
twice restores the membership of both the in-memory set and its persisted
copy (which always coincide), though the insertion order — and hence the
serialized `localStorage` string — may differ; a single toggle adds the
id when absent and removes it when present. -/
theorem c8_pin_toggle_membership (s : AppState) (id : String)
    (h : s.pinnedNotes.Nodup) :
    (∀ x, x ∈ (handlePinNote id (handlePinNote id s)).pinnedNotes
      ↔ x ∈ s.pinnedNotes)
  ∧ (handlePinNote id (handlePinNote id s)).storedPinned
      = (handlePinNote id (handlePinNote id s)).pinnedNotes
  ∧ (∀ x, x ∈ (handlePinNote id s).pinnedNotes
      ↔ (x = id ∧ id ∉ s.pinnedNotes) ∨ (x ≠ id ∧ x ∈ s.pinnedNotes))
  ∧ (handlePinNote id s).storedPinned = (handlePinNote id s).pinnedNotes := by
  refine ⟨fun x => ?_, rfl, fun x => toggleL_mem _ _ _ h, rfl⟩
  show x ∈ toggleL (toggleL s.pinnedNotes id) id ↔ x ∈ s.pinnedNotes
  rw [toggleL_mem _ _ _ (toggleL_nodup _ _ h), toggleL_mem _ _ _ h,
    toggleL_mem _ _ _ h]
  by_cases hx : x = id <;> by_cases hid : id ∈ s.pinnedNotes <;>
    simp [hx, hid]

/-- Witness for `c8_pin_toggle_membership` at a concrete pinned set. -/
theorem c8_pin_toggle_membership_witness :
    "b" ∈ (handlePinNote ("a") (handlePinNote ("a")
        (initState none ["a", "b"]))).pinnedNotes
      ↔ "b" ∈ (initState none ["a", "b"]).pinnedNotes :=
  (c8_pin_toggle_membership (initState none ["a", "b"]) ("a") (by decide)).1
    ("b")

/-- Claim C10: `escapeHTML` returns the empty string on `null`/`undefined`
or empty input, and otherwise rewrites the string character by character,
replacing each `&`, `<`, `>`, double-quote and single-quote with its HTML
entity and keeping every other character — stated against the claim-side
table `escSpecChar` and evaluated on concrete inputs covering all five
specials. -/
theorem c10_escape_html :
    escapeHTML none = ""
  ∧ escapeHTML (some ("")) = ""
  ∧ (∀ s : String,
      (escapeHTML (some s)).data = s.data.flatMap fun c => (escSpecChar c).data)
  ∧ escapeHTML (some ("a&b<c>d")) = "a&amp;b&lt;c&gt;d"
  ∧ escapeHTML (some (String.mk [Char.ofNat 34, Char.ofNat 39]))
      = "&quot;&#39;" := by
  refine ⟨rfl, rfl, ?_, by decide, by decide⟩
  intro s
  by_cases h : jsTruthy s = true
  · simp only [escapeHTML, h, if_true]
    exact replaceAllChars_data s
  · have hs : s = "" := by
      by_contra hne
      exact h ((jsTruthy_iff s).mpr hne)
    subst hs
    rfl

/-! ## Helper lemmas: the stable sort -/

theorem insertS_perm {α : Type} (le : α → α → Bool) (x : α) :
    ∀ l : List α, List.Perm (insertS le x l) (x :: l)
  | [] => List.Perm.refl _
  | y :: ys => by
      simp only [insertS]
      split
      · exact List.Perm.refl _
      · exact ((insertS_perm le x ys).cons y).trans (List.Perm.swap x y ys)

theorem isort_perm {α : Type} (le : α → α → Bool) :
    ∀ l : List α, List.Perm (isort le l) l
  | [] => List.Perm.refl _
  | x :: xs =>
      (insertS_perm le x (isort le xs)).trans ((isort_perm le xs).cons x)

theorem mem_insertS {α : Type} (le : α → α → Bool) (x a : α) (l : List α) :
    a ∈ insertS le x l ↔ a = x ∨ a ∈ l := by
  rw [(insertS_perm le x l).mem_iff, List.mem_cons]

theorem insertS_pairwise {α : Type} (le : α → α → Bool)
    (htot : ∀ a b, le a b = true ∨ le b a = true)
    (htrans : ∀ a b c, le a b = true → le b c = true → le a c = true)
    (x : α) : ∀ l : List α, l.Pairwise (le · · = true) →
      (insertS le x l).Pairwise (le · · = true)
  | [], _ => List.pairwise_singleton _ x
  | y :: ys, h => by
      rcases List.pairwise_cons.mp h with ⟨hy, hys⟩
      simp only [insertS]
      split
      · rename_i hxy
        refine List.pairwise_cons.mpr ⟨?_, h⟩
        intro z hz
        rcases List.mem_cons.mp hz with rfl | hz
        · exact hxy
        · exact htrans x y z hxy (hy z hz)
      · rename_i hxy
        have hyx : le y x = true := by
          rcases htot x y with hh | hh
          · exact absurd hh hxy
          · exact hh
        refine List.pairwise_cons.mpr ⟨?_, insertS_pairwise le htot htrans x ys hys⟩
        intro z hz
        rcases (mem_insertS le x z ys).mp hz with rfl | hz
        · exact hyx
        · exact hy z hz

theorem isort_pairwise {α : Type} (le : α → α → Bool)
    (htot : ∀ a b, le a b = true ∨ le b a = true)
    (htrans : ∀ a b c, le a b = true → le b c = true → le a c = true) :
    ∀ l : List α, (isort le l).Pairwise (le · · = true)
  | [] => List.Pairwise.nil
  | x :: xs =>
      insertS_pairwise le htot htrans x (isort le xs)
        (isort_pairwise le htot htrans xs)

theorem sublist_insertS {α : Type} (le : α → α → Bool) (x : α) :
    ∀ (m m' : List α), m'.Sublist m → m'.Sublist (insertS le x m)
  | [], m', h => by
      rw [List.sublist_nil.mp h]
      exact List.nil_sublist _
  | y :: ys, m', h => by
      simp only [insertS]
      split
      · exact h.cons x
      · cases h with
        | cons _ h' => exact (sublist_insertS le x ys m' h').cons y
        | cons₂ _ h' => exact (sublist_insertS le x ys _ h').cons₂ y

theorem cons_sublist_insertS {α : Type} (le : α → α → Bool) (x : α) :
    ∀ (m t : List α), t.Sublist m → (∀ z ∈ t, le x z = true) →
      (x :: t).Sublist (insertS le x m)
  | [], t, h, _ => by
      rw [List.sublist_nil.mp h]
      exact List.Sublist.refl [x]
  | y :: ys, t, h, hx => by
      simp only [insertS]
      split
      · exact h.cons₂ x
      · rename_i hxy
        cases h with
        | cons _ h' =>
            exact (cons_sublist_insertS le x ys t h' hx).cons y
        | cons₂ _ h' =>
            exact absurd (hx y (List.mem_cons_self y _)) hxy

theorem isort_stable {α : Type} (le : α → α → Bool) :
    ∀ (l l' : List α), l'.Sublist l → l'.Pairwise (le · · = true) →
      l'.Sublist (isort le l)
  | [], l', h, _ => by
      rw [List.sublist_nil.mp h]
      exact List.nil_sublist _
  | x :: xs, l', h, hp => by
      simp only [isort]
      cases h with
      | cons _ h' =>
          exact sublist_insertS le x _ _ (isort_stable le xs l' h' hp)
      | cons₂ _ h' =>
          rcases List.pairwise_cons.mp hp with ⟨hx, hp'⟩
          exact cons_sublist_insertS le x _ _
            (isort_stable le xs _ h' hp') hx

/-! ## Helper lemmas: the render comparator -/

theorem leN_iff (pinned : List String) (a b : Note) :
    leN pinned a b = true ↔
      ((notePinned pinned b = true → notePinned pinned a = true)
        ∧ (notePinned pinned a = notePinned pinned b
            → b.updated_at ≤ a.updated_at)) := by
  unfold leN jsCompare
  cases ha : notePinned pinned a <;> cases hb : notePinned pinned b <;>
    simp <;> omega

theorem leN_total (pinned : List String) (a b : Note) :
    leN pinned a b = true ∨ leN pinned b a = true := by
  unfold leN jsCompare
  cases ha : notePinned pinned a <;> cases hb : notePinned pinned b <;>
    simp <;> omega

theorem leN_trans (pinned : List String) (a b c : Note) :
    leN pinned a b = true → leN pinned b c = true → leN pinned a c = true := by
  unfold leN jsCompare
  cases ha : notePinned pinned a <;> cases hb : notePinned pinned b <;>
    cases hc : notePinned pinned c <;> simp <;> omega

/-- Claim C6: the rendered sort is a stable sort of the filtered list
whose primary key is pinned-status descending and whose secondary key is
`updated_at` descending: it permutes its input, every pair in the output
respects the lexicographic key order, any key-ordered subsequence of the
input survives as a subsequence of the output (stability, ties included),
and the claim's concrete example renders as `[B, C, A]`. -/
theorem c6_render_sort_order :
    (∀ (pinned : List String) (l : List Note),
        List.Perm (sortNotes pinned l) l
      ∧ (sortNotes pinned l).Pairwise (fun a b =>
          (notePinned pinned b = true → notePinned pinned a = true)
          ∧ (notePinned pinned a = notePinned pinned b
              → b.updated_at ≤ a.updated_at))
      ∧ (∀ l' : List Note, l'.Sublist l →
          l'.Pairwise (leN pinned · · = true) → l'.Sublist (sortNotes pinned l)))
  ∧ renderList ("") ["B"] [noteA, noteB, noteC] = [noteB, noteC, noteA] := by
  refine ⟨fun pinned l => ⟨isort_perm _ l, ?_, fun l' h hp => isort_stable _ l l' h hp⟩,
    by decide⟩
  exact (isort_pairwise (leN pinned) (leN_total pinned) (leN_trans pinned) l).imp
    (fun h => (leN_iff pinned _ _).mp h)

/-- Witness for `c6_render_sort_order`: the stability clause applied to a
concrete key-ordered subsequence of the example list. -/
theorem c6_render_sort_order_witness :
    List.Sublist [noteB, noteC] (sortNotes ["B"] [noteA, noteB, noteC]) :=
  (c6_render_sort_order.1 ["B"] [noteA, noteB, noteC]).2.2 [noteB, noteC]
    (by decide) (by decide)

/-! ## Helper lemmas: the filter -/

theorem bSub_nil_true : ∀ l : List Char, bSub [] l = true
  | [] => rfl
  | _ :: _ => by simp [bSub, bPre]

/-- Claim C4, counterexample: a note whose title and content are both
empty is dropped by the renderer's filter even for the empty search term,
although the empty string contains the empty term as a substring — the
truthiness guards `note.title && …` / `note.filecontent && …` reject
empty fields before the `includes` test runs. -/
theorem c4_claim_counterexample :
    claimMatches ("") emptyNote = true
  ∧ filterNotes ("") [emptyNote] = [] := by
  decide

/-- Claim C4, amended: the filter keeps a note iff its title is non-empty
and contains the search term as a case-insensitive substring, or its
content is non-empty and does; consequently the empty search term matches
every note except one whose title and content are both empty, and the
`Grocery List` note matches `grocery`, `GROCERY` and `List`. -/
theorem c4_filter_characterization :
    (∀ (searchTerm : String) (cache : List Note) (n : Note),
      n ∈ filterNotes searchTerm cache ↔ n ∈ cache ∧
        ((n.title ≠ ""
            ∧ SubstrOf (jsToLower searchTerm).data (jsToLower n.title).data)
        ∨ (n.filecontent ≠ ""
            ∧ SubstrOf (jsToLower searchTerm).data (jsToLower n.filecontent).data)))
  ∧ (∀ (cache : List Note) (n : Note), n ∈ cache →
      (n.title ≠ "" ∨ n.filecontent ≠ "") → n ∈ filterNotes ("") cache)
  ∧ filterNotes ("grocery") [groceryNote] = [groceryNote]
  ∧ filterNotes ("GROCERY") [groceryNote] = [groceryNote]
  ∧ filterNotes ("List") [groceryNote] = [groceryNote] := by
  refine ⟨?_, ?_, by decide, by decide, by decide⟩
  · intro t cache n
    rw [filterNotes, List.mem_filter]
    refine and_congr_right fun _ => ?_
    simp only [noteMatches, Bool.or_eq_true, Bool.and_eq_true, jsTruthy_iff,
      jsIncludes_iff]
  · intro cache n hn hne
    rw [filterNotes, List.mem_filter]
    refine ⟨hn, ?_⟩
    have e : jsToLower ("") = "" := rfl
    rw [e]
    have h1 : jsIncludes (jsToLower n.title) ("") = true := bSub_nil_true _
    have h2 : jsIncludes (jsToLower n.filecontent) ("") = true := bSub_nil_true _
    rcases hne with hne | hne <;>
      simp [noteMatches, jsTruthy_iff, h1, h2, hne]

/-- Witness for `c4_filter_characterization`: with an empty search term
the grocery note is kept. -/
theorem c4_filter_characterization_witness :
    groceryNote ∈ filterNotes ("") [groceryNote] :=
  c4_filter_characterization.2.1 [groceryNote] groceryNote (by decide)
    (.inl (by decide))

/-! ## Helper lemmas: cache-operation sequences -/

/-- Each operation either leaves the cache alone or installs one of its
successful `/history` payloads verbatim. -/
theorem applyOp_cache (s : AppState) (op : CacheOp) :
    (applyOp s op).notesCache = s.notesCache
  ∨ (applyOp s op).notesCache ∈ okPayloads op := by
  cases op with
  | fetchOp r =>
      cases r with
      | ok l => exact .inr (by simp [applyOp, fetchHistory, okPayloads])
      | err m => exact .inl rfl
  | deleteOp fns c dr hr =>
      cases c with
      | false => exact .inl rfl
      | true =>
          cases dr with
          | ok _ =>
              cases hr with
              | ok l =>
                  exact .inr (by simp [applyOp, handleDeleteNote, fetchHistory,
                    okPayloads])
              | err _ => exact .inl rfl
          | err _ => exact .inl rfl

theorem runOps_nodup :
    ∀ (ops : List CacheOp) (s : AppState),
      (s.notesCache.map Note.filename).Nodup →
      (∀ l ∈ ops.flatMap okPayloads, (l.map Note.filename).Nodup) →
      ((runOps s ops).notesCache.map Note.filename).Nodup
  | [], s, hinit, _ => hinit
  | op :: rest, s, hinit, hfetch => by
      show ((runOps (applyOp s op) rest).notesCache.map Note.filename).Nodup
      refine runOps_nodup rest (applyOp s op) ?_ ?_
      · rcases applyOp_cache s op with h | h
        · rw [h]; exact hinit
        · refine hfetch _ (List.mem_flatMap.mpr ⟨op, List.mem_cons_self op rest, h⟩)
      · intro l hl
        refine hfetch l (List.mem_flatMap.mpr ?_)
        rcases List.mem_flatMap.mp hl with ⟨o, ho, hlo⟩
        exact ⟨o, List.mem_cons_of_mem op ho, hlo⟩

/-- Claim C5, counterexample: a refresh whose `/history` payload repeats
an id installs both copies — the code never deduplicates, so the Local
Cache then holds two entries with the same id. -/
theorem c5_claim_counterexample :
    ¬ (((runOps (initState none [])
        [.fetchOp (.ok [dupNote, dupNote])]).notesCache.map
          Note.filename).Nodup) := by
  decide

/-- Claim C5, amended: the cache is always the last successfully fetched
list verbatim (or the initial cache), so provided every successful fetch
payload in the sequence carries at most one entry per id, the Local Cache
has at most one entry per id at all times — after every prefix of the
sequence. -/
theorem c5_cache_unique_of_unique_fetches (s : AppState) (ops : List CacheOp)
    (hinit : (s.notesCache.map Note.filename).Nodup)
    (hfetch : ∀ l ∈ ops.flatMap okPayloads, (l.map Note.filename).Nodup) :
    ∀ pre post, ops = pre ++ post →
      ((runOps s pre).notesCache.map Note.filename).Nodup := by
  intro pre post hsplit
  refine runOps_nodup pre s hinit ?_
  intro l hl
  refine hfetch l ?_
  rcases List.mem_flatMap.mp hl with ⟨o, ho, hlo⟩
  exact List.mem_flatMap.mpr ⟨o, hsplit ▸ List.mem_append_left post ho, hlo⟩

/-- Witness for `c5_cache_unique_of_unique_fetches` on a one-refresh
sequence with a duplicate-free payload. -/
theorem c5_cache_unique_of_unique_fetches_witness :
    (((runOps (initState none [])
        [.fetchOp (.ok [noteY])]).notesCache.map Note.filename)).Nodup :=
  c5_cache_unique_of_unique_fetches (initState none []) [.fetchOp (.ok [noteY])]
    (by decide) (by decide) [.fetchOp (.ok [noteY])] [] rfl

end StoreMyText
